import Mathlib

/-!
Verification development for the `streamlit-sqlalchemy` adapter library.

The source of truth is the Python code in
`src/streamlit_sqlalchemy/mixin.py` (the `StreamlitAlchemyMixin` class and
its module-level helpers) and
`src/streamlit_sqlalchemy/streamlit_sqlalchemy_view.py`.

The development is a shallow embedding: Python values that the library
manipulates become the inductive type `Value`; SQLAlchemy column metadata
becomes `Column`; the widget-dispatch function `_st_get_input_function`
becomes `stGetInputFunction`; Python `dict`s keyed by strings become
association lists together with the exact insertion/update semantics of
CPython dicts (insertion order preserved, update replaces in place);
the SQLAlchemy session protocol (deferred `add`, flush at commit on
`session.begin()` scope exit, rollback on failure) is made explicit where a
claim depends on it; CPython attribute lookup (class dict first,
`__getattr__` only on failure) and private-name mangling are made explicit
for the initialization-guard code.
-/

namespace StreamlitSqlalchemy

/-- Calendar date, as carried by `datetime.date`.  Only equality matters to
the widget logic, so the fields are plain integers. -/
structure Date where
  year : Int
  month : Int
  day : Int
deriving DecidableEq

/-- Wall-clock time, as carried by `datetime.time`. -/
structure TimeOfDay where
  hour : Int
  minute : Int
  second : Int
  microsecond : Int
deriving DecidableEq

/-- Python values flowing between stored records and widgets: `None`,
numbers, strings, booleans, temporal values, and references to mapped
record instances (`vrec i` stands for a mapped object whose `id` attribute
is `i`). -/
inductive Value where
  | vnone : Value
  | vint : Int → Value
  | vfloat : ℚ → Value
  | vstr : String → Value
  | vbool : Bool → Value
  | vdate : Date → Value
  | vtime : TimeOfDay → Value
  | vdatetime : Date → TimeOfDay → Value
  | vrec : Int → Value
deriving DecidableEq

/-- Exceptions of the Python runtime and libraries that the embedded code
can surface. -/
inductive PyError where
  | attributeError : PyError
  | runtimeError : PyError
  | recursionError : PyError
  | integrityError : PyError
deriving DecidableEq

instance {ε α : Type} [DecidableEq ε] [DecidableEq α] : DecidableEq (Except ε α) := fun x y =>
  match x, y with
  | .ok a, .ok b =>
    if h : a = b then .isTrue (by rw [h])
    else .isFalse (by intro he; cases he; exact h rfl)
  | .ok _, .error _ => .isFalse (by intro he; cases he)
  | .error _, .ok _ => .isFalse (by intro he; cases he)
  | .error e, .error f =>
    if h : e = f then .isTrue (by rw [h])
    else .isFalse (by intro he; cases he; exact h rfl)

/-- `s.endswith(t)` on Python strings, computed on the character lists so
that it evaluates by kernel reduction. -/
def strEndsWith (s t : String) : Bool :=
  t.data.isSuffixOf s.data

/-- `s.startswith(t)` on Python strings. -/
def strStartsWith (s t : String) : Bool :=
  t.data.isPrefixOf s.data

/-- Lookup in an association list modelling a Python `dict` (`d.get(k)` /
`d[k]`); keys are unique in a real dict, and lookup takes the first hit. -/
def lookupA {α : Type} (m : List (String × α)) (k : String) : Option α :=
  (m.find? (fun p => p.1 == k)).map (fun p => p.2)

/-- `k in d` on a Python `dict` modelled as an association list. -/
def hasKeyA {α : Type} (m : List (String × α)) (k : String) : Bool :=
  m.any (fun p => p.1 == k)

/-- `m.update(ds)` on Python dicts: keys already present are overwritten in
place (order preserved), new keys are appended in iteration order of `ds`. -/
def dictUpdate {α : Type} (m ds : List (String × α)) : List (String × α) :=
  m.map (fun p => (p.1, ((lookupA ds p.1).getD p.2)))
    ++ ds.filter (fun d => !(hasKeyA m d.1))

theorem lookupA_nil {α : Type} (k : String) : lookupA ([] : List (String × α)) k = none := rfl

theorem lookupA_cons {α : Type} (p : String × α) (m : List (String × α)) (k : String) :
    lookupA (p :: m) k = if p.1 = k then some p.2 else lookupA m k := by
  by_cases h : p.1 = k
  · simp [lookupA, List.find?_cons, h]
  · simp only [lookupA, List.find?_cons]
    have hb : (p.1 == k) = false := by simpa using h
    simp [hb, h, lookupA]

theorem hasKeyA_nil {α : Type} (k : String) : hasKeyA ([] : List (String × α)) k = false := rfl

theorem hasKeyA_cons {α : Type} (p : String × α) (m : List (String × α)) (k : String) :
    hasKeyA (p :: m) k = ((p.1 == k) || hasKeyA m k) := by
  simp [hasKeyA]

theorem hasKeyA_eq_false_lookupA {α : Type} (m : List (String × α)) (k : String)
    (h : hasKeyA m k = false) : lookupA m k = none := by
  induction m with
  | nil => rfl
  | cons p m ih =>
    rw [hasKeyA_cons] at h
    rcases Bool.or_eq_false_iff.mp h with ⟨h1, h2⟩
    rw [lookupA_cons, if_neg (by simpa using h1)]
    exact ih h2

theorem lookupA_append {α : Type} (m n : List (String × α)) (k : String) :
    lookupA (m ++ n) k = ((lookupA m k).orElse (fun _ => lookupA n k)) := by
  induction m with
  | nil => simp [lookupA_nil, Option.orElse]
  | cons p m ih =>
    by_cases h : p.1 = k
    · simp [lookupA_cons, h, Option.orElse]
    · simpa [lookupA_cons, h] using ih

/-- In a dict-like list with no duplicate keys, membership determines lookup. -/
theorem lookupA_of_mem_nodup {α : Type} (m : List (String × α)) (k : String) (v : α)
    (hmem : (k, v) ∈ m) (hnd : (m.map (fun p => p.1)).Nodup) :
    lookupA m k = some v := by
  induction m with
  | nil => cases hmem
  | cons p m ih =>
    rcases List.mem_cons.mp hmem with h | h
    · rw [lookupA_cons, ← h]
      simp
    · have hk : p.1 ≠ k := by
        intro he
        have : k ∈ m.map (fun q => q.1) := by
          exact List.mem_map.mpr ⟨(k, v), h, rfl⟩
        rw [List.map_cons] at hnd
        exact (List.nodup_cons.mp hnd).1 (he ▸ this)
      rw [lookupA_cons, if_neg hk]
      exact ih h ((List.nodup_cons.mp (by simpa using hnd)).2)

theorem hasKeyA_of_mem {α : Type} (m : List (String × α)) (k : String) (v : α)
    (hmem : (k, v) ∈ m) : hasKeyA m k = true := by
  induction m with
  | nil => cases hmem
  | cons p m ih =>
    rcases List.mem_cons.mp hmem with h | h
    · rw [hasKeyA_cons, ← h]
      simp
    · rw [hasKeyA_cons, ih h]
      simp

theorem lookupA_mapFst {α : Type} (m : List (String × α)) (g : String × α → α) (k : String)
    (hm : hasKeyA m k = true) :
    ∃ p : String × α, p.1 = k ∧
      lookupA (m.map (fun q => (q.1, g q))) k = some (g p) := by
  induction m with
  | nil => simp [hasKeyA_nil] at hm
  | cons p m ih =>
    by_cases hp : p.1 = k
    · exact ⟨p, hp, by simp [List.map_cons, lookupA_cons, hp]⟩
    · rw [hasKeyA_cons] at hm
      have hm2 : hasKeyA m k = true := by
        rcases Bool.or_eq_true_iff.mp hm with h | h
        · exact absurd (by simpa using h) hp
        · exact h
      rcases ih hm2 with ⟨q, hq1, hq2⟩
      exact ⟨q, hq1, by rw [List.map_cons, lookupA_cons, if_neg hp]; exact hq2⟩

theorem hasKeyA_mapFst_eq_false {α : Type} (m : List (String × α)) (g : String × α → α)
    (k : String) (hm : hasKeyA m k = false) :
    hasKeyA (m.map (fun q => (q.1, g q))) k = false := by
  induction m with
  | nil => rfl
  | cons p m ih =>
    rw [hasKeyA_cons] at hm
    rcases Bool.or_eq_false_iff.mp hm with ⟨h1, h2⟩
    rw [List.map_cons, hasKeyA_cons]
    simp only [h1, ih h2, Bool.or_false]

/-- Looking up a key of `ds` after `m.update(ds)` yields the `ds` value
(Python dict update semantics), provided `ds` has the unique keys every
real dict has. -/
theorem lookupA_dictUpdate {α : Type} (m ds : List (String × α)) (k : String) (v : α)
    (hmem : (k, v) ∈ ds) (hnd : (ds.map (fun p => p.1)).Nodup) :
    lookupA (dictUpdate m ds) k = some v := by
  rw [dictUpdate, lookupA_append]
  by_cases hm : hasKeyA m k = true
  · rcases lookupA_mapFst m (fun q => ((lookupA ds q.1).getD q.2)) k hm with ⟨p, hp1, hp2⟩
    rw [hp2, hp1, lookupA_of_mem_nodup ds k v hmem hnd]
    simp [Option.orElse]
  · have hmf : hasKeyA m k = false := by
      cases h : hasKeyA m k
      · rfl
      · exact absurd h hm
    have hmap : lookupA (m.map (fun q => (q.1, ((lookupA ds q.1).getD q.2)))) k = none :=
      hasKeyA_eq_false_lookupA _ _ (hasKeyA_mapFst_eq_false m _ k hmf)
    rw [hmap]
    simp only [Option.orElse, Option.none_orElse]
    clear hmap hm
    induction ds with
    | nil => cases hmem
    | cons d ds ih =>
      rcases List.mem_cons.mp hmem with h | h
      · have hd1 : d.1 = k := by rw [← h]
        have hdf : hasKeyA m d.1 = false := hd1 ▸ hmf
        simp only [List.filter_cons, hdf, Bool.not_false, if_pos]
        rw [lookupA_cons, if_pos hd1, ← h]
      · have hnd2 : (ds.map (fun p => p.1)).Nodup := by
          rw [List.map_cons, List.nodup_cons] at hnd
          exact hnd.2
        have hk : d.1 ≠ k := by
          intro he
          have : k ∈ ds.map (fun q => q.1) := List.mem_map.mpr ⟨(k, v), h, rfl⟩
          rw [List.map_cons, List.nodup_cons] at hnd
          exact hnd.1 (he ▸ this)
        by_cases hd : hasKeyA m d.1 = true
        · simp only [List.filter_cons, hd, Bool.not_true, Bool.false_eq_true, if_false]
          exact ih h hnd2
        · have hdf : hasKeyA m d.1 = false := by
            cases hx : hasKeyA m d.1
            · rfl
            · exact absurd hx hd
          simp only [List.filter_cons, hdf, Bool.not_false, if_pos]
          rw [lookupA_cons, if_neg hk]
          exact ih h hnd2

/-! ## Column metadata and the widget selector

`mixin.py` dispatches on SQLAlchemy column metadata: the column name, the
column's type object, its `foreign_keys` set, and its `default`.  The
SQLAlchemy type classes checked by `isinstance` in
`_st_get_input_function` (Integer, Float, Boolean, DateTime, Date, Time,
Text, with plain String columns falling through to the default branch) are
pairwise unrelated classes, so the `isinstance` chain is equivalent to a
case split on the following tag. -/

/-- The semantic type of a column, mirroring the SQLAlchemy type object
attached to it. `string` stands for every type not matched by one of the
`isinstance` checks (the `st.text_input` fallthrough in the source). -/
inductive ColType where
  | integer : ColType
  | float : ColType
  | boolean : ColType
  | datetime : ColType
  | date : ColType
  | time : ColType
  | text : ColType
  | string : ColType
deriving DecidableEq

/-- A SQLAlchemy `Column` as seen by the mixin: its name, type tag, the
table names of its foreign keys (`column.foreign_keys`, a set that the
source pops one element from), and the column-level default
(`column.default.arg` when a default is present). -/
structure Column where
  name : String
  type : ColType
  foreignKeys : List String
  dflt : Option Value
deriving DecidableEq

/-- `get_default_value(column, default=d)` from `_st_get_input_function`:
the column default if the column has one, else the supplied fallback. -/
def getDefaultValue (c : Column) (d : Value) : Value :=
  match c.dflt with
  | some v => v
  | none => d

/-- The outcome of widget dispatch: which input-rendering function
`_st_get_input_function` returns, together with the default value captured
by its closure.  `φ` is the type of the caller-supplied override functions
stored in `__st_input_meta__`; an override is returned as-is, so the model
carries it unevaluated. -/
inductive InputChoice (φ : Type) where
  | overridden : φ → InputChoice φ
  | fkSelectbox : String → InputChoice φ
  | numberInput : Value → InputChoice φ
  | floatInput : Value → InputChoice φ
  | booleanSelect : Option Value → InputChoice φ
  | datetimeInput : Value → InputChoice φ
  | dateInput : Value → InputChoice φ
  | timeInput : Value → InputChoice φ
  | textArea : Value → InputChoice φ
  | textInput : Value → InputChoice φ
deriving DecidableEq

/-- `_st_get_default_input_function` (mixin.py 291-303): the
`__st_input_meta__` dict lookup; a class without the attribute is modelled
by the empty list. -/
def stGetDefaultInputFunction {φ : Type} (meta : List (String × φ)) (c : Column) : Option φ :=
  lookupA meta c.name

/-- `_st_get_input_function` (mixin.py 305-419).  `today`/`nowTime` stand
for `date.today()` / `datetime.now()` sampled when the function runs.  The
branches appear in source order: explicit override, foreign key, Integer,
Float, Boolean, DateTime, Date, Time, Text, and the `st.text_input`
fallthrough. -/
def stGetInputFunction {φ : Type} (meta : List (String × φ)) (today : Date)
    (nowTime : TimeOfDay) (c : Column) : InputChoice φ :=
  match stGetDefaultInputFunction meta c with
  | some f => .overridden f
  | none =>
    match c.foreignKeys with
    | t :: _ => .fkSelectbox t
    | [] =>
      match c.type with
      | .integer => .numberInput (getDefaultValue c (.vint 0))
      | .float => .floatInput (getDefaultValue c (.vfloat 0))
      | .boolean => .booleanSelect c.dflt
      | .datetime => .datetimeInput (getDefaultValue c (.vdatetime today nowTime))
      | .date => .dateInput (getDefaultValue c (.vdate today))
      | .time => .timeInput (getDefaultValue c (.vtime nowTime))
      | .text => .textArea (getDefaultValue c (.vstr ""))
      | .string => .textInput (getDefaultValue c (.vstr ""))

/-- The semantic-type dispatch table as the specification words it
(integer, float, boolean, datetime, date, time, long-text, short-text as
the default case), stated independently of the source's `if` chain so the
precedence theorem compares the two. -/
def semanticWidget {φ : Type} (today : Date) (nowTime : TimeOfDay) (c : Column) :
    InputChoice φ :=
  match c.type with
  | .integer => .numberInput (getDefaultValue c (.vint 0))
  | .float => .floatInput (getDefaultValue c (.vfloat 0))
  | .boolean => .booleanSelect c.dflt
  | .datetime => .datetimeInput (getDefaultValue c (.vdatetime today nowTime))
  | .date => .dateInput (getDefaultValue c (.vdate today))
  | .time => .timeInput (getDefaultValue c (.vtime nowTime))
  | .text => .textArea (getDefaultValue c (.vstr ""))
  | .string => .textInput (getDefaultValue c (.vstr ""))

/-! ## The datetime and time widgets -/

/-- `value.time().replace(minute=0, second=0, microsecond=0)` from
`datetime_input` (mixin.py 375) and `time_input` (mixin.py 401). -/
def truncToHour (t : TimeOfDay) : TimeOfDay :=
  ⟨t.hour, 0, 0, 0⟩

/-- The two independent pickers the datetime widget renders. -/
structure DatetimePickers where
  datePicker : Date
  timePicker : TimeOfDay
deriving DecidableEq

/-- The decomposition step of `datetime_input` (mixin.py 372-380): the
explicit `value` if one was passed, else the captured default; the date
picker gets `value.date()` untouched, the time picker gets `value.time()`
truncated to the hour. -/
def datetimeDecompose (d : Date × TimeOfDay) (value : Option (Date × TimeOfDay)) :
    DatetimePickers :=
  let v := value.getD d
  ⟨v.1, truncToHour v.2⟩

/-- The value `datetime_input` returns when the user leaves both pickers
untouched: `datetime.combine(selected_date, selected_time)` of the
displayed picker values (mixin.py 383). -/
def datetimeInputRead (d : Date × TimeOfDay) (value : Option (Date × TimeOfDay)) :
    Date × TimeOfDay :=
  let p := datetimeDecompose d value
  (p.datePicker, p.timePicker)

/-- The value `time_input` (mixin.py 396-404) displays and returns when
untouched: the explicit value if passed, else the default, then truncated
to the hour in either case. -/
def timeInputRead (d : TimeOfDay) (value : Option TimeOfDay) : TimeOfDay :=
  truncToHour (value.getD d)

/-! ## Pre-fill behaviour of each widget

`st_update_form` calls every input function with `value=` the stored
column value.  `widgetPrefill w v` is the initial value the widget `w`
then displays (and returns when the user leaves it untouched).  `none`
means the widget has no deterministic pre-fill derived from `v`: the
foreign-key selectbox ignores `value` and starts unselected
(`index=None`, mixin.py 329-336), an override is an arbitrary
caller-supplied function, the boolean selectbox starts unselected when
both value and default are `None`, and the temporal widgets are only
defined on values of their own type (anything else crashes in Python and
is outside this model, see `typedValue`). -/
def widgetPrefill {φ : Type} (w : InputChoice φ) (v : Value) : Option Value :=
  match w with
  | .overridden _ => none
  | .fkSelectbox _ => none
  | .numberInput d => some (if v = .vnone then d else v)
  | .floatInput d => some (if v = .vnone then d else v)
  | .booleanSelect d =>
    match (if v = .vnone then d.getD .vnone else v) with
    | .vbool b => some (.vbool b)
    | _ => none
  | .datetimeInput d =>
    match (if v = .vnone then d else v) with
    | .vdatetime dd tt => some (.vdatetime dd (truncToHour tt))
    | _ => none
  | .dateInput d => some (if v = .vnone then d else v)
  | .timeInput d =>
    match (if v = .vnone then d else v) with
    | .vtime tt => some (.vtime (truncToHour tt))
    | _ => none
  | .textArea d => some (if v = .vnone then d else v)
  | .textInput d => some (if v = .vnone then d else v)

/-- The stored value is of the column's own semantic type (a well-typed
row, which is what the backing database guarantees). -/
def typedValue : ColType → Value → Bool
  | .integer, .vint _ => true
  | .float, .vfloat _ => true
  | .boolean, .vbool _ => true
  | .datetime, .vdatetime _ _ => true
  | .date, .vdate _ => true
  | .time, .vtime _ => true
  | .text, .vstr _ => true
  | .string, .vstr _ => true
  | _, _ => false

/-- What actually survives the stored-value-to-update-form round trip:
every value unchanged, except that datetime and time values lose the
sub-hour part of their time component. -/
def roundTripValue : ColType → Value → Value
  | .datetime, .vdatetime dd tt => .vdatetime dd (truncToHour tt)
  | .time, .vtime tt => .vtime (truncToHour tt)
  | _, v => v

/-! ## The per-instance update form (`st_update_form`, mixin.py 525-567) -/

/-- The editability test of the update-form loop (mixin.py 544-549): a
column gets a widget unless its name is `id`, ends in `_id`, or is listed
in `except_columns`.  The test reads nothing but the name. -/
def updateFormRenders (exceptColumns : List String) (c : Column) : Bool :=
  !((c.name == "id") || strEndsWith c.name "_id") && !(exceptColumns.contains c.name)

/-- The columns `st_update_form` renders widgets for, in source order. -/
def stUpdateFormRendered (cols : List Column) (exceptColumns : List String) : List Column :=
  cols.filter (fun c => updateFormRenders exceptColumns c)

/-- The pre-fill the update form computes for each rendered column: the
input function of the column, called with `value=` the stored value
(mixin.py 551-559).  The instance is the list of columns paired with their
stored attribute values. -/
def stUpdateFormPrefills {φ : Type} (meta : List (String × φ)) (today : Date)
    (nowTime : TimeOfDay) (exceptColumns : List String)
    (inst : List (Column × Value)) : List (String × Option Value) :=
  (inst.filter (fun cv => updateFormRenders exceptColumns cv.1)).map
    (fun cv => (cv.1.name, widgetPrefill (stGetInputFunction meta today nowTime cv.1) cv.2))

/-- `kwargs[field].id`: Python attribute access `.id` on a collected form
value.  Only a mapped record instance has an `id` attribute; on anything
else Python raises `AttributeError`. -/
def getIdAttr : Value → Except PyError Value
  | .vrec i => .ok (.vint i)
  | _ => .error .attributeError

/-- One step of the submit loop of `st_update_form` (mixin.py 563-565):
a field whose name ends in `_id` has its value replaced by the value's
`.id` attribute; every other field is left alone.  The test reads nothing
but the field name. -/
def coerceEntry (p : String × Value) : Except PyError (String × Value) :=
  if strEndsWith p.1 "_id" then (getIdAttr p.2).map (fun v => (p.1, v)) else .ok p

/-- The whole submit-coercion loop over the collected `kwargs`, in dict
iteration order; Python propagates the first `AttributeError`. -/
def stUpdateSubmitCoerce (kwargs : List (String × Value)) :
    Except PyError (List (String × Value)) :=
  kwargs.mapM coerceEntry

/-! ## Claims about widget dispatch and the update form -/

/-- C5: for every field descriptor, widget selection follows the
precedence explicit per-field override, then foreign-key relation lookup,
then dispatch on the field's semantic type (integer, float, boolean,
datetime, date, time, long-text, short-text default), first match
winning; an override is returned as-is. -/
theorem c5_widget_precedence {φ : Type} (meta : List (String × φ)) (today : Date)
    (nowTime : TimeOfDay) (c : Column) :
    (∀ f, stGetDefaultInputFunction meta c = some f →
      stGetInputFunction meta today nowTime c = .overridden f) ∧
    (stGetDefaultInputFunction meta c = none → ∀ t ts, c.foreignKeys = t :: ts →
      stGetInputFunction meta today nowTime c = .fkSelectbox t) ∧
    (stGetDefaultInputFunction meta c = none → c.foreignKeys = [] →
      stGetInputFunction meta today nowTime c = semanticWidget today nowTime c) := by
  refine ⟨?_, ?_, ?_⟩
  · intro f hf
    simp [stGetInputFunction, hf]
  · intro hm t ts hfk
    simp [stGetInputFunction, hm, hfk]
  · intro hm hfk
    cases hct : c.type <;>
      simp [stGetInputFunction, semanticWidget, hm, hfk, hct]

/-- Witness for C5 at concrete inputs: an override beats a foreign key, a
foreign key beats the integer branch, and without either the semantic
table decides. -/
theorem c5_widget_precedence_witness :
    stGetInputFunction [("x", 42)] ⟨2024, 1, 1⟩ ⟨0, 0, 0, 0⟩
        ⟨"x", ColType.integer, ["item"], none⟩ = InputChoice.overridden 42 ∧
    stGetInputFunction ([] : List (String × Nat)) ⟨2024, 1, 1⟩ ⟨0, 0, 0, 0⟩
        ⟨"y", ColType.integer, ["item"], none⟩ = InputChoice.fkSelectbox "item" ∧
    stGetInputFunction ([] : List (String × Nat)) ⟨2024, 1, 1⟩ ⟨0, 0, 0, 0⟩
        ⟨"y", ColType.integer, [], none⟩
      = semanticWidget ⟨2024, 1, 1⟩ ⟨0, 0, 0, 0⟩ ⟨"y", ColType.integer, [], none⟩ := by
  refine ⟨?_, ?_, ?_⟩
  · exact (c5_widget_precedence [("x", 42)] ⟨2024, 1, 1⟩ ⟨0, 0, 0, 0⟩
      ⟨"x", ColType.integer, ["item"], none⟩).1 42 (by decide)
  · exact (c5_widget_precedence ([] : List (String × Nat)) ⟨2024, 1, 1⟩ ⟨0, 0, 0, 0⟩
      ⟨"y", ColType.integer, ["item"], none⟩).2.1 (by decide) "item" [] rfl
  · exact (c5_widget_precedence ([] : List (String × Nat)) ⟨2024, 1, 1⟩ ⟨0, 0, 0, 0⟩
      ⟨"y", ColType.integer, [], none⟩).2.2 (by decide) rfl

/-- C6 counterexample: with an explicit value supplied, the datetime
widget does NOT keep the time component at full precision — 12:34:56.789
is displayed and read back as 12:00:00.000 — and the standalone time
widget truncates an explicit value just the same. -/
theorem c6_truncation_counterexample :
    (datetimeInputRead (⟨2020, 1, 1⟩, ⟨0, 0, 0, 0⟩)
        (some (⟨2024, 5, 6⟩, ⟨12, 34, 56, 789⟩))).2 ≠ (⟨12, 34, 56, 789⟩ : TimeOfDay) ∧
    timeInputRead ⟨0, 0, 0, 0⟩ (some ⟨12, 34, 56, 789⟩) ≠ (⟨12, 34, 56, 789⟩ : TimeOfDay) := by
  decide

/-- C6 amended: the datetime widget decomposes into an independent date
picker and time picker and recomposes them on read; the date portion
keeps full precision in all cases, while the time component is truncated
to the hour boundary in ALL cases — with or without an explicit value —
and the standalone time widget truncates in all cases as well. -/
theorem c6_truncation_amended (d : Date × TimeOfDay) (value : Option (Date × TimeOfDay))
    (t0 : TimeOfDay) (tv : Option TimeOfDay) :
    datetimeInputRead d value
      = ((datetimeDecompose d value).datePicker, (datetimeDecompose d value).timePicker) ∧
    (datetimeDecompose d value).datePicker = (value.getD d).1 ∧
    (datetimeDecompose d value).timePicker = truncToHour (value.getD d).2 ∧
    timeInputRead t0 tv = truncToHour (tv.getD t0) :=
  ⟨rfl, rfl, rfl, rfl⟩

/-- C3 counterexample: a record whose non-identity fields are a datetime
`when` = 2024-05-06 12:34:56.789 and a foreign key `test_item_id` = 3
opens an update form whose only widget is `when`, pre-filled with
12:00:00.000 — not the stored value — and the non-identity field
`test_item_id` gets no widget at all. -/
theorem c3_roundtrip_counterexample :
    stUpdateFormPrefills ([] : List (String × Nat)) ⟨2020, 1, 1⟩ ⟨0, 0, 0, 0⟩ []
        [(⟨"id", ColType.integer, [], none⟩, Value.vint 1),
         (⟨"when", ColType.datetime, [], none⟩,
           Value.vdatetime ⟨2024, 5, 6⟩ ⟨12, 34, 56, 789⟩),
         (⟨"test_item_id", ColType.integer, ["item"], none⟩, Value.vint 3)]
      = [("when", some (Value.vdatetime ⟨2024, 5, 6⟩ ⟨12, 0, 0, 0⟩))] ∧
    Value.vdatetime ⟨2024, 5, 6⟩ (⟨12, 0, 0, 0⟩ : TimeOfDay)
      ≠ Value.vdatetime ⟨2024, 5, 6⟩ ⟨12, 34, 56, 789⟩ := by
  decide

/-- C3 amended: for every field the update form actually renders (name
not `id`, not ending in `_id`, not excluded), with no explicit override
and no foreign key, and a stored value of the column's own type, the
widget is pre-filled with exactly the stored value — except that datetime
and time fields have their time component truncated to the hour. -/
theorem c3_roundtrip_amended {φ : Type} (meta : List (String × φ)) (today : Date)
    (nowTime : TimeOfDay) (exceptColumns : List String) (c : Column) (v : Value)
    (_hrender : updateFormRenders exceptColumns c = true)
    (hmeta : stGetDefaultInputFunction meta c = none)
    (hfk : c.foreignKeys = [])
    (htyped : typedValue c.type v = true) :
    widgetPrefill (stGetInputFunction meta today nowTime c) v
      = some (roundTripValue c.type v) := by
  cases hct : c.type <;> cases v <;>
    simp_all [stGetInputFunction, widgetPrefill, roundTripValue, typedValue, getDefaultValue]

/-- Witness for C3 amended: a rendered string field pre-fills with its
stored value unchanged. -/
theorem c3_roundtrip_witness :
    widgetPrefill (stGetInputFunction ([] : List (String × Nat)) ⟨2024, 1, 1⟩ ⟨0, 0, 0, 0⟩
        ⟨"name", ColType.string, [], none⟩) (Value.vstr "Bob")
      = some (roundTripValue ColType.string (Value.vstr "Bob")) :=
  c3_roundtrip_amended [] ⟨2024, 1, 1⟩ ⟨0, 0, 0, 0⟩ [] ⟨"name", ColType.string, [], none⟩
    (Value.vstr "Bob") (by decide) rfl rfl rfl

/-- C10: in the update form, both editability and submit-time identity
coercion are decided by the column's NAME alone — a widget is rendered
iff the name is not `id`, does not end in `_id`, and is not excluded; two
columns with the same name are treated identically whatever their
foreign-key metadata; and on submit exactly the `_id`-suffixed fields
have their value replaced by the value's `.id` attribute. -/
theorem c10_update_name_dispatch (exceptColumns : List String) (cols : List Column)
    (c c2 : Column) (p : String × Value) :
    (c ∈ stUpdateFormRendered cols exceptColumns ↔
      (c ∈ cols ∧ updateFormRenders exceptColumns c = true)) ∧
    (updateFormRenders exceptColumns c = true ↔
      (¬(c.name = "id") ∧ strEndsWith c.name "_id" = false
        ∧ exceptColumns.contains c.name = false)) ∧
    (c.name = c2.name → updateFormRenders exceptColumns c = updateFormRenders exceptColumns c2) ∧
    (strEndsWith p.1 "_id" = true →
      coerceEntry p = (getIdAttr p.2).map (fun v => (p.1, v))) ∧
    (strEndsWith p.1 "_id" = false → coerceEntry p = .ok p) ∧
    stUpdateSubmitCoerce ([p] : List (String × Value)) = (coerceEntry p).map (fun q => [q]) := by
  refine ⟨by simp [stUpdateFormRendered, List.mem_filter], ?_, ?_, ?_, ?_, ?_⟩
  · simp only [updateFormRenders, Bool.and_eq_true, Bool.not_eq_true',
      Bool.or_eq_false_iff, beq_eq_false_iff_ne, ne_eq, and_assoc]
  · intro h
    unfold updateFormRenders
    rw [h]
  · intro h
    simp [coerceEntry, h]
  · intro h
    simp [coerceEntry, h]
  · cases h : coerceEntry p <;>
      simp [stUpdateSubmitCoerce, List.mapM, List.mapM.loop, h, Except.map]

/-- Witness for C10: an `_id`-suffixed field holding a record reference
has the reference replaced by its id, and two same-named columns with
different foreign-key metadata get the same editability verdict. -/
theorem c10_update_name_dispatch_witness :
    coerceEntry ("test_item_id", Value.vrec 7) = Except.ok ("test_item_id", Value.vint 7) ∧
    updateFormRenders [] ⟨"test_item", ColType.integer, ["item"], none⟩
      = updateFormRenders [] ⟨"test_item", ColType.string, [], none⟩ := by
  constructor
  · have h := (c10_update_name_dispatch [] [] ⟨"x", ColType.string, [], none⟩
      ⟨"x", ColType.string, [], none⟩ ("test_item_id", Value.vrec 7)).2.2.2.1 (by decide)
    simpa [getIdAttr] using h
  · exact (c10_update_name_dispatch [] [] ⟨"test_item", ColType.integer, ["item"], none⟩
      ⟨"test_item", ColType.string, [], none⟩ ("x", Value.vnone)).2.2.1 rfl

/-! ## Foreign-key choice lists (C4)

The foreign-key branch of `_st_get_input_function` (mixin.py 317-338)
loads every instance of the target class, sorts them in place with
`choices.sort(key=_st_order_by)` — Python's stable sort — and renders a
selectbox with `index=None` and `format_func=_st_repr`.  `_st_order_by`
applied to an instance returns the `__st_order_by__` override's result if
the class has one, else the value of the first non-`id` column, else the
instance's `id` (mixin.py 50-58).  The target class is abstracted as
`FkTarget`: the three candidate key functions plus the display-label
function; `κ` is the key type (Python only ever compares keys of one
homogeneous type here). -/

/-- The sort-key and label capabilities of the foreign-key target class. -/
structure FkTarget (Obj : Type) (κ : Type) where
  orderOverride : Option (Obj → κ)
  firstCol : Option (Obj → κ)
  idOf : Obj → κ
  labelOf : Obj → String

/-- `_st_order_by` (mixin.py 50-58) evaluated on one instance: override,
else first non-identity column value, else `id`. -/
def stOrderByKey {Obj κ : Type} (T : FkTarget Obj κ) (o : Obj) : κ :=
  match T.orderOverride with
  | some f => f o
  | none =>
    match T.firstCol with
    | some g => g o
    | none => T.idOf o

/-- Stable insertion of `x` in front of the first element with a key not
below `key x`: the building block of a stable sort. -/
def insertByKey {Obj κ : Type} [LinearOrder κ] (key : Obj → κ) (x : Obj) :
    List Obj → List Obj
  | [] => [x]
  | y :: ys => if key x ≤ key y then x :: y :: ys else y :: insertByKey key x ys

/-- Stable sort by key.  Python's `list.sort(key=...)` is a stable sort,
and any two stable sorts by the same key agree, so this computes exactly
the list the source builds. -/
def sortByKey {Obj κ : Type} [LinearOrder κ] (key : Obj → κ) : List Obj → List Obj
  | [] => []
  | x :: xs => insertByKey key x (sortByKey key xs)

theorem insertByKey_perm {Obj κ : Type} [LinearOrder κ] (key : Obj → κ) (x : Obj)
    (l : List Obj) : List.Perm (insertByKey key x l) (x :: l) := by
  induction l with
  | nil => simp [insertByKey]
  | cons y ys ih =>
    by_cases h : key x ≤ key y
    · simp [insertByKey, h]
    · rw [insertByKey, if_neg h]
      exact List.Perm.trans (List.Perm.cons y ih) (List.Perm.swap x y ys)

theorem insertByKey_sorted {Obj κ : Type} [LinearOrder κ] (key : Obj → κ) (x : Obj)
    (l : List Obj) (h : List.Sorted (fun a b => key a ≤ key b) l) :
    List.Sorted (fun a b => key a ≤ key b) (insertByKey key x l) := by
  induction l with
  | nil => simp [insertByKey]
  | cons y ys ih =>
    rw [List.sorted_cons] at h
    by_cases hxy : key x ≤ key y
    · rw [insertByKey, if_pos hxy, List.sorted_cons]
      constructor
      · intro b hb
        rcases List.mem_cons.mp hb with hb | hb
        · exact hb ▸ hxy
        · exact le_trans hxy (h.1 b hb)
      · exact List.sorted_cons.mpr h
    · rw [insertByKey, if_neg hxy, List.sorted_cons]
      constructor
      · intro b hb
        rcases List.mem_cons.mp ((insertByKey_perm key x ys).mem_iff.mp hb) with hb | hb
        · exact hb ▸ le_of_not_le hxy
        · exact h.1 b hb
      · exact ih h.2

theorem sortByKey_perm {Obj κ : Type} [LinearOrder κ] (key : Obj → κ) (l : List Obj) :
    List.Perm (sortByKey key l) l := by
  induction l with
  | nil => exact List.Perm.refl []
  | cons x xs ih =>
    exact List.Perm.trans (insertByKey_perm key x (sortByKey key xs)) (List.Perm.cons x ih)

theorem sortByKey_sorted {Obj κ : Type} [LinearOrder κ] (key : Obj → κ) (l : List Obj) :
    List.Sorted (fun a b => key a ≤ key b) (sortByKey key l) := by
  induction l with
  | nil => simp [sortByKey]
  | cons x xs ih => exact insertByKey_sorted key x (sortByKey key xs) ih

/-- What the foreign-key selectbox renders. -/
structure SelectboxRender (Obj : Type) where
  options : List Obj
  formatted : List String
  selectedIndex : Option Nat

/-- The foreign-key selectbox built by `_st_get_input_function`
(mixin.py 317-338): all instances of the target, sorted by
`_st_order_by`, formatted by `_st_repr`, with `index=None`. -/
def fkSelectboxRender {Obj κ : Type} [LinearOrder κ] (T : FkTarget Obj κ)
    (instances : List Obj) : SelectboxRender Obj :=
  { options := sortByKey (stOrderByKey T) instances
    formatted := (sortByKey (stOrderByKey T) instances).map T.labelOf
    selectedIndex := none }

/-- C4: the foreign-key choice list is exactly the set of all instances
of the target type, sorted by the target's sort key — override if
declared, else first non-identity field, else identity — each option
rendered through the target's display label, with no option
pre-selected. -/
theorem c4_fk_choices {Obj κ : Type} [LinearOrder κ] (T : FkTarget Obj κ)
    (instances : List Obj) :
    List.Perm (fkSelectboxRender T instances).options instances ∧
    List.Sorted (fun a b => stOrderByKey T a ≤ stOrderByKey T b)
      (fkSelectboxRender T instances).options ∧
    (fkSelectboxRender T instances).formatted
      = ((fkSelectboxRender T instances).options).map T.labelOf ∧
    (fkSelectboxRender T instances).selectedIndex = none ∧
    (∀ f, T.orderOverride = some f → ∀ o, stOrderByKey T o = f o) ∧
    (T.orderOverride = none → ∀ g, T.firstCol = some g → ∀ o, stOrderByKey T o = g o) ∧
    (T.orderOverride = none → T.firstCol = none → ∀ o, stOrderByKey T o = T.idOf o) := by
  refine ⟨sortByKey_perm _ _, sortByKey_sorted _ _, rfl, rfl, ?_, ?_, ?_⟩
  · intro f hf o
    simp [stOrderByKey, hf]
  · intro h1 g hg o
    simp [stOrderByKey, h1, hg]
  · intro h1 h2 o
    simp [stOrderByKey, h1, h2]

/-- Witness for C4: three instances keyed 3, 1, 2 by their first
non-identity column come out sorted 1, 2, 3 and unselected, and with an
override present the override is the sort key. -/
theorem c4_fk_choices_witness :
    (fkSelectboxRender (⟨none, some (fun o => o.2), fun o => o.1, fun _ => "x"⟩ :
        FkTarget (Int × Int) Int) [(1, 3), (2, 1), (3, 2)]).options
      = [(2, 1), (3, 2), (1, 3)] ∧
    (fkSelectboxRender (⟨none, some (fun o => o.2), fun o => o.1, fun _ => "x"⟩ :
        FkTarget (Int × Int) Int) [(1, 3), (2, 1), (3, 2)]).selectedIndex = none ∧
    stOrderByKey (⟨some (fun o => o.2), none, fun o => o.1, fun _ => "x"⟩ :
        FkTarget (Int × Int) Int) (5, 7) = 7 := by
  refine ⟨by decide, ?_, ?_⟩
  · exact (c4_fk_choices (⟨none, some (fun o => o.2), fun o => o.1, fun _ => "x"⟩ :
      FkTarget (Int × Int) Int) [(1, 3), (2, 1), (3, 2)]).2.2.2.1
  · exact (c4_fk_choices (⟨some (fun o => o.2), none, fun o => o.1, fun _ => "x"⟩ :
      FkTarget (Int × Int) Int) []).2.2.2.2.1 (fun o => o.2) rfl (5, 7)

/-! ## The display label `_st_repr` (C7)

`_st_repr` (mixin.py 39-47): the `__st_repr__` override's result if the
object has one; else `getattr(obj, n)` where `n` is the first non-`id`
column name from the class mapper (mixin.py 33-36); else `repr(obj)`.
A mapped instance is modelled as its ordered column list with the stored
attribute values — for a well-formed instance the mapper's columns and
the instance's attributes are the same list. -/

/-- A mapped record instance as `_st_repr` sees it. -/
structure PyObj where
  reprOverride : Option String
  cols : List (String × Value)
  pyReprFallback : String

/-- `_st_get_first_column_name` (mixin.py 33-36): the first column whose
name is not `id`, if any. -/
def firstNonIdName (cols : List (String × Value)) : Option String :=
  (cols.find? (fun p => !(p.1 == "id"))).map (fun p => p.1)

/-- `getattr(obj, name)` restricted to column attributes: the stored value
if the column exists, `AttributeError` otherwise. -/
def getattrCol (o : PyObj) (name : String) : Except PyError Value :=
  match lookupA o.cols name with
  | some v => .ok v
  | none => .error .attributeError

/-- `_st_repr` (mixin.py 39-47), with each Python step explicit. -/
def stRepr (o : PyObj) : Except PyError Value :=
  match o.reprOverride with
  | some s => .ok (.vstr s)
  | none =>
    match firstNonIdName o.cols with
    | some n => getattrCol o n
    | none => .ok (.vstr o.pyReprFallback)

/-- The display label as the specification words it: explicit override if
present; else the value of the first non-identity field; else a generic
fallback string.  Total by construction. -/
def stReprSpec (o : PyObj) : Value :=
  match o.reprOverride with
  | some s => .vstr s
  | none =>
    match o.cols.find? (fun p => !(p.1 == "id")) with
    | some p => p.2
    | none => .vstr o.pyReprFallback

theorem find_nonId_lookupA (cols : List (String × Value)) (p : String × Value)
    (h : cols.find? (fun q => !(q.1 == "id")) = some p) :
    lookupA cols p.1 = some p.2 := by
  induction cols with
  | nil => cases h
  | cons q cols ih =>
    by_cases hq : q.1 = "id"
    · rw [List.find?_cons_of_neg _ (by simp [hq])] at h
      have hp : p.1 ≠ "id" := by
        have := List.find?_some h
        simpa using this
      rw [lookupA_cons, if_neg (fun he => hp (he.symm.trans hq))]
      exact ih h
    · rw [List.find?_cons_of_pos _ (by simp [hq])] at h
      cases h
      rw [lookupA_cons, if_pos rfl]

/-- C7: for every well-formed record instance the display-label function
terminates without throwing and returns the override if present, else the
first non-identity field's value, else the generic fallback. -/
theorem c7_label_total (o : PyObj) : stRepr o = .ok (stReprSpec o) := by
  unfold stRepr stReprSpec
  cases o.reprOverride with
  | some s => rfl
  | none =>
    cases hf : o.cols.find? (fun p => !(p.1 == "id")) with
    | none => simp [firstNonIdName, hf]
    | some p =>
      simp only [firstNonIdName, hf, Option.map_some]
      have hl := find_nonId_lookupA o.cols p hf
      simp [getattrCol, hl]

/-! ## The create form (`st_create_form`, mixin.py 150-201)

The loop walks `cls.__table__.columns` once: the `id` column is skipped,
a column named in `defaults` contributes the default value with no
widget, and every other column gets a widget from
`_st_get_input_function` whose returned value lands in `kwargs`.  After
the loop the source warns when some default key is not a `kwargs` key,
then runs `kwargs.update(defaults)`.  Column names in a table are unique,
so a fresh-key dict insert is an append; `widgetOut` abstracts the value
each rendered widget returns. -/

/-- The `kwargs` dict built by the create-form loop (mixin.py 169-184),
in insertion order. -/
def createFormKwargs (widgetOut : Column → Value) (defaults : List (String × Value)) :
    List Column → List (String × Value)
  | [] => []
  | c :: cs =>
    if c.name == "id" then createFormKwargs widgetOut defaults cs
    else
      match lookupA defaults c.name with
      | some v => (c.name, v) :: createFormKwargs widgetOut defaults cs
      | none => (c.name, widgetOut c) :: createFormKwargs widgetOut defaults cs

/-- The widgets the create-form loop renders, in order: one per column
that is neither `id` nor pre-filled by a default. -/
def createFormWidgets {φ : Type} (meta : List (String × φ)) (today : Date)
    (nowTime : TimeOfDay) (defaults : List (String × Value)) :
    List Column → List (String × InputChoice φ)
  | [] => []
  | c :: cs =>
    if c.name == "id" then createFormWidgets meta today nowTime defaults cs
    else if hasKeyA defaults c.name then createFormWidgets meta today nowTime defaults cs
    else (c.name, stGetInputFunction meta today nowTime c)
        :: createFormWidgets meta today nowTime defaults cs

/-- Everything `st_create_form` has produced by the time the submit
button is rendered. -/
structure CreateFormOutcome (φ : Type) where
  renderedWidgets : List (String × InputChoice φ)
  kwargs : List (String × Value)
  warned : Bool

/-- `st_create_form` (mixin.py 150-201) up to the submit button: the
rendered widgets, the final `kwargs` after `kwargs.update(defaults)`
(mixin.py 191), and whether the unknown-defaults warning fired
(mixin.py 186-189; `logging.warning`, which never raises). -/
def stCreateForm {φ : Type} (meta : List (String × φ)) (today : Date)
    (nowTime : TimeOfDay) (widgetOut : Column → Value) (cols : List Column)
    (defaults : List (String × Value)) : CreateFormOutcome φ :=
  let kw := createFormKwargs widgetOut defaults cols
  { renderedWidgets := createFormWidgets meta today nowTime defaults cols
    kwargs := dictUpdate kw defaults
    warned := defaults.any (fun d => !(hasKeyA kw d.1)) }

/-- The names of the non-identity columns of a record type. -/
def nonIdColNames (cols : List Column) : List String :=
  (cols.filter (fun c => !(c.name == "id"))).map (fun c => c.name)

/-- Membership test on a list of names. -/
def containsStr (l : List String) (k : String) : Bool :=
  l.any (fun s => s == k)

theorem createFormKwargs_hasKey (widgetOut : Column → Value)
    (defaults : List (String × Value)) (cols : List Column) (k : String) :
    hasKeyA (createFormKwargs widgetOut defaults cols) k
      = containsStr (nonIdColNames cols) k := by
  induction cols with
  | nil => rfl
  | cons c cs ih =>
    by_cases hid : (c.name == "id") = true
    · simp only [createFormKwargs, hid, if_true, ih, nonIdColNames, List.filter_cons,
        Bool.not_true, Bool.false_eq_true, if_false]
    · have hidf : (c.name == "id") = false := Bool.eq_false_iff.mpr hid
      have htail : ∀ v : Value,
          hasKeyA ((c.name, v) :: createFormKwargs widgetOut defaults cs) k
            = containsStr (nonIdColNames (c :: cs)) k := by
        intro v
        rw [hasKeyA_cons, ih]
        simp only [nonIdColNames, List.filter_cons, hidf, Bool.not_false, if_pos,
          List.map_cons, containsStr, List.any_cons]
      cases hl : lookupA defaults c.name with
      | some v =>
        simp only [createFormKwargs, hidf, Bool.false_eq_true, if_false, hl]
        exact htail v
      | none =>
        simp only [createFormKwargs, hidf, Bool.false_eq_true, if_false, hl]
        exact htail (widgetOut c)

theorem createFormWidgets_eq {φ : Type} (meta : List (String × φ)) (today : Date)
    (nowTime : TimeOfDay) (defaults : List (String × Value)) (cols : List Column) :
    createFormWidgets meta today nowTime defaults cols
      = (cols.filter (fun c => !(c.name == "id") && !(hasKeyA defaults c.name))).map
          (fun c => (c.name, stGetInputFunction meta today nowTime c)) := by
  induction cols with
  | nil => rfl
  | cons c cs ih =>
    by_cases h1 : (c.name == "id") = true
    · simp only [createFormWidgets, h1, if_true, ih, List.filter_cons, Bool.not_true,
        Bool.false_and, Bool.false_eq_true, if_false]
    · have h1f : (c.name == "id") = false := Bool.eq_false_iff.mpr h1
      by_cases h2 : hasKeyA defaults c.name = true
      · simp only [createFormWidgets, h1f, Bool.false_eq_true, if_false, h2, if_true, ih,
          List.filter_cons, Bool.not_false, Bool.not_true, Bool.true_and, Bool.and_false]
      · have h2f : hasKeyA defaults c.name = false := Bool.eq_false_iff.mpr h2
        simp only [createFormWidgets, h1f, Bool.false_eq_true, if_false, h2f, ih,
          List.filter_cons, Bool.not_false, Bool.true_and, if_pos, List.map_cons]

/-- C8: the create form warns exactly when some caller-supplied default
names a field absent from the non-identity columns; the warning does not
abort rendering — the widget list is always the full list of non-`id`,
non-defaulted columns — and every default (in particular every default
whose key does match a column) ends up applied in `kwargs`. -/
theorem c8_defaults_warning {φ : Type} (meta : List (String × φ)) (today : Date)
    (nowTime : TimeOfDay) (widgetOut : Column → Value) (cols : List Column)
    (defaults : List (String × Value))
    (hnd : (defaults.map (fun p => p.1)).Nodup) :
    ((stCreateForm meta today nowTime widgetOut cols defaults).warned = true ↔
      ∃ p ∈ defaults, containsStr (nonIdColNames cols) p.1 = false) ∧
    (stCreateForm meta today nowTime widgetOut cols defaults).renderedWidgets
      = (cols.filter (fun c => !(c.name == "id") && !(hasKeyA defaults c.name))).map
          (fun c => (c.name, stGetInputFunction meta today nowTime c)) ∧
    (∀ p ∈ defaults,
      lookupA (stCreateForm meta today nowTime widgetOut cols defaults).kwargs p.1
        = some p.2) := by
  refine ⟨?_, createFormWidgets_eq meta today nowTime defaults cols, ?_⟩
  · show (defaults.any fun d => !(hasKeyA (createFormKwargs widgetOut defaults cols) d.1)) = true ↔ _
    rw [List.any_eq_true]
    refine exists_congr fun p => and_congr_right fun _ => ?_
    rw [createFormKwargs_hasKey, Bool.not_eq_true']
  · intro p hp
    exact lookupA_dictUpdate _ defaults p.1 p.2 hp hnd

/-- Witness for C8: a default keyed `fullname`, absent from a type whose
columns are `id` and `name`, fires the warning and is still applied to
`kwargs`; a default keyed `name` does not fire it. -/
theorem c8_defaults_warning_witness :
    (stCreateForm ([] : List (String × Nat)) ⟨2024, 1, 1⟩ ⟨0, 0, 0, 0⟩ (fun _ => Value.vnone)
        [⟨"id", ColType.integer, [], none⟩, ⟨"name", ColType.string, [], none⟩]
        [("fullname", Value.vstr "John")]).warned = true ∧
    lookupA (stCreateForm ([] : List (String × Nat)) ⟨2024, 1, 1⟩ ⟨0, 0, 0, 0⟩
        (fun _ => Value.vnone)
        [⟨"id", ColType.integer, [], none⟩, ⟨"name", ColType.string, [], none⟩]
        [("fullname", Value.vstr "John")]).kwargs "fullname" = some (Value.vstr "John") ∧
    (stCreateForm ([] : List (String × Nat)) ⟨2024, 1, 1⟩ ⟨0, 0, 0, 0⟩ (fun _ => Value.vnone)
        [⟨"id", ColType.integer, [], none⟩, ⟨"name", ColType.string, [], none⟩]
        [("name", Value.vstr "A")]).warned = false := by
  have h1 := c8_defaults_warning ([] : List (String × Nat)) ⟨2024, 1, 1⟩ ⟨0, 0, 0, 0⟩
    (fun _ => Value.vnone)
    [⟨"id", ColType.integer, [], none⟩, ⟨"name", ColType.string, [], none⟩]
    [("fullname", Value.vstr "John")] (by decide)
  have h2 := c8_defaults_warning ([] : List (String × Nat)) ⟨2024, 1, 1⟩ ⟨0, 0, 0, 0⟩
    (fun _ => Value.vnone)
    [⟨"id", ColType.integer, [], none⟩, ⟨"name", ColType.string, [], none⟩]
    [("name", Value.vstr "A")] (by decide)
  refine ⟨h1.1.mpr ⟨("fullname", Value.vstr "John"), by decide, by decide⟩,
    h1.2.2 ("fullname", Value.vstr "John") (by decide), ?_⟩
  rw [Bool.eq_false_iff]
  intro hw
  rcases h2.1.mp hw with ⟨p, hp, hcf⟩
  have hpe : p = ("name", Value.vstr "A") := by
    rcases List.mem_singleton.mp hp with h
    exact h
  rw [hpe] at hcf
  exact absurd hcf (by decide)

/-! ## The persistence gateway: `_st_create` (mixin.py 444-459)

SQLAlchemy session semantics made explicit: `session.add(obj)` only
registers the object with the unit of work — it performs no SQL and
cannot raise `IntegrityError`.  The pending INSERT is flushed when the
`session.begin()` context exits without an exception, i.e. at the end of
the `with` statement; a constraint violation raises `IntegrityError`
there, the transaction is rolled back, and the exception propagates out
of the `with` statement.  In `_st_create` the `try`/`except
IntegrityError` wraps only the `session.add(obj)` line (mixin.py
451-459), and the `else:` success log runs right after `add`, before the
commit. -/

/-- `session.add`: registers a pending row; never raises
`IntegrityError`. -/
def sessionAdd {Row : Type} (pending : List Row) (r : Row) :
    Except PyError (List Row) :=
  .ok (pending ++ [r])

/-- The flush performed by the commit at `session.begin()` scope exit:
pending rows are inserted one by one; the first constraint violation
aborts with `IntegrityError` and the whole transaction is rolled back
(the caller keeps the original store). -/
def sessionFlush {Row : Type} (violates : List Row → Row → Bool) :
    List Row → List Row → Except PyError (List Row)
  | store, [] => .ok store
  | store, r :: rs =>
    if violates store r then .error .integrityError
    else sessionFlush violates (store ++ [r]) rs

/-- The observable outcome of one `_st_create` call. -/
structure CreateOutcome (Row : Type) where
  store : List Row
  reportedError : Bool
  successNotice : Bool
  raised : Bool
deriving DecidableEq

/-- `_st_create` (mixin.py 444-459): `obj = cls(**kwargs)`; then inside
`with conn.session as session, session.begin():` a `try` around
`session.add(obj)` whose `except IntegrityError` logs the error report
and whose `else` logs the success notice; the commit runs at the `with`
exit, outside the `try`, so an `IntegrityError` raised there escapes to
the caller with the transaction rolled back. -/
def stCreate {Row : Type} (violates : List Row → Row → Bool) (store : List Row)
    (r : Row) : CreateOutcome Row :=
  match sessionAdd ([] : List Row) r with
  | .error _ =>
    { store := store, reportedError := true, successNotice := false, raised := false }
  | .ok pending =>
    match sessionFlush violates store pending with
    | .ok newStore =>
      { store := newStore, reportedError := false, successNotice := true, raised := false }
    | .error _ =>
      { store := store, reportedError := false, successNotice := true, raised := true }

/-- C1 at the failing input: with a uniqueness constraint on the first
field and a store already holding `("Test", 1)`, creating `("Test", 2)`
leaves the row count unchanged (the transaction is rolled back) but NO
error is reported — the dead `except IntegrityError` around
`session.add` never fires — the success notice is even logged, and the
`IntegrityError` raised by the commit at scope exit propagates to the
caller, contradicting the claim that the exception is caught inside the
operation. -/
theorem c1_integrity_escape_eval :
    stCreate (fun store r => store.any (fun s => s.1 == r.1))
        [(("Test" : String), (1 : Int))] ("Test", 2)
      = { store := [("Test", 1)], reportedError := false, successNotice := true,
          raised := true } ∧
    (stCreate (fun store r => store.any (fun s => s.1 == r.1))
        [(("Test" : String), (1 : Int))] ("Test", 2)).store.length = 1 := by
  constructor
  · rfl
  · rfl

/-! ## Initialization (`st_initialize` and the `st_` guard)

Two CPython mechanisms decide these claims and are modelled explicitly.

Private-name mangling: inside the body of `class StreamlitAlchemyMixin`,
the identifier `__connection` is rewritten to
`_StreamlitAlchemyMixin__connection`, so `st_initialize`'s
`cls.__connection = connection` (mixin.py 102) and `st_get_connection`'s
`cls.__connection` (mixin.py 131-132) use the mangled name — while
`_st_is_initialized`'s `hasattr(cls, "__connection")` (mixin.py 442)
passes a string literal, which is never mangled, and therefore tests an
attribute nothing ever sets.

Attribute lookup: `__getattr__` (mixin.py 107-117) is invoked by CPython
only when normal lookup fails; every `st_`-prefixed method exists in the
class dict, so the guard is bypassed for them, and a class-level
attribute access never consults an instance `__getattr__` at all. -/

/-- The class-level state of the mixin: the dynamically-set class
attributes (name, stored connection id). -/
structure MixinClassState where
  classAttrs : List (String × Int)
deriving DecidableEq

/-- The attribute name `st_initialize` actually writes, after CPython
private-name mangling. -/
def mangledConnectionName : String :=
  "_StreamlitAlchemyMixin__connection"

/-- `hasattr(cls, name)` on the dynamic class attributes. -/
def hasattrClass (s : MixinClassState) (name : String) : Bool :=
  hasKeyA s.classAttrs name

/-- `_st_is_initialized` (mixin.py 437-442): `hasattr(cls,
"__connection")` — the unmangled string literal. -/
def stIsInitialized (s : MixinClassState) : Bool :=
  hasattrClass s "__connection"

/-- One `st_initialize` call: state afterwards, plus whether the
called-multiple-times warning was logged. -/
structure InitOutcome where
  state : MixinClassState
  warned : Bool
deriving DecidableEq

/-- CPython attribute assignment `setattr(cls, name, v)`: replaces the
attribute in place when present, appends it otherwise. -/
def setattrClass (s : MixinClassState) (name : String) (v : Int) : MixinClassState :=
  if hasKeyA s.classAttrs name then
    ⟨s.classAttrs.map (fun p => if p.1 == name then (name, v) else p)⟩
  else ⟨s.classAttrs ++ [(name, v)]⟩

/-- `st_initialize` (mixin.py 91-102): warn and return if
`_st_is_initialized()`; otherwise store the connection under the mangled
attribute name. -/
def stInitializeFn (s : MixinClassState) (conn : Int) : InitOutcome :=
  if stIsInitialized s then ⟨s, true⟩
  else ⟨setattrClass s mangledConnectionName conn, false⟩

/-- `st_get_connection` (mixin.py 126-132): reads `cls.__connection`,
i.e. the mangled attribute; a missing class attribute raises
`AttributeError`. -/
def stGetConnection (s : MixinClassState) : Except PyError Int :=
  match lookupA s.classAttrs mangledConnectionName with
  | some c => .ok c
  | none => .error .attributeError

/-- The `st_`-prefixed methods defined in the class body of
`StreamlitAlchemyMixin` (mixin.py 91-567); these are found by normal
attribute lookup, so `__getattr__` is never invoked for them. -/
def mixinClassDict : List String :=
  ["st_initialize", "st_pretty_class", "st_get_connection", "st_list_all",
   "st_create_form", "st_update_select_form", "st_delete_select_form",
   "st_crud_tabs", "st_edit_button", "st_delete_button", "st_update_form"]

/-- CPython attribute lookup on a mixin instance, with the
`__getattr__` guard (mixin.py 107-117): names found in the class dict or
among dynamic class attributes resolve normally; only a FAILED lookup
reaches `__getattr__`, which for `st_`-prefixed names calls
`__st_ensure_initialized` (raising `RuntimeError` when
`_st_is_initialized()` is false) and then retries `getattr(self, item)`
on the still-missing name, which recurses into `__getattr__` forever. -/
def getattrOnInstance (s : MixinClassState) (item : String) : Except PyError Unit :=
  if mixinClassDict.contains item || hasattrClass s item then .ok ()
  else if strStartsWith item "st_" then
    if stIsInitialized s then .error .recursionError
    else .error .runtimeError
  else .error .attributeError

/-- Any CRUD path acquires the connection via `st_get_connection` before
touching the store (mixin.py 142, 450, 467, 581, 598); `runQuery` is the
store access that would follow. -/
def crudWithConnection {α : Type} (s : MixinClassState) (runQuery : Int → α) :
    Except PyError α :=
  match stGetConnection s with
  | .error e => .error e
  | .ok c => .ok (runQuery c)

/-- C2 at the failing input: on an uninitialized class, looking up the
`st_`-prefixed operation `st_list_all` succeeds through the class dict —
the `__getattr__` guard is bypassed, so no initialization `RuntimeError`
is raised — and the operation then dies with `AttributeError` inside
`st_get_connection`, before any store access runs (the claim's "no CRUD
reaches the store" holds, but the promised `RuntimeError` never
appears). -/
theorem c2_uninitialized_eval :
    getattrOnInstance ⟨[]⟩ "st_list_all" = .ok () ∧
    crudWithConnection ⟨[]⟩ (fun c => [Value.vint c]) = .error .attributeError ∧
    crudWithConnection ⟨[]⟩ (fun c => [Value.vint c]) ≠ .error .runtimeError := by
  refine ⟨by decide, by decide, by decide⟩

/-- C9 at the failing input: initializing with connection 1 and then
again with connection 2 logs no warning and silently overwrites the
stored connection with 2, because `_st_is_initialized` still reports
false after the first call — it checks the unmangled name
`__connection` while the attribute is stored under the mangled one. -/
theorem c9_reinitialize_eval :
    stIsInitialized (stInitializeFn ⟨[]⟩ 1).state = false ∧
    (stInitializeFn (stInitializeFn ⟨[]⟩ 1).state 2).warned = false ∧
    lookupA (stInitializeFn (stInitializeFn ⟨[]⟩ 1).state 2).state.classAttrs
      mangledConnectionName = some 2 ∧
    stGetConnection (stInitializeFn (stInitializeFn ⟨[]⟩ 1).state 2).state = .ok 2 := by
  exact ⟨by decide, by decide, by decide, by decide⟩

end StreamlitSqlalchemy
